import Mathlib

/-!
Verification of the ascifight simulation core against its specification.

The definitions below are a shallow embedding of the board data model
(`ascifight/board/data.py`), the order-resolution engine
(`ascifight/board/actions.py`, `ascifight/board/computations.py`) and the
tick orchestrator (`ascifight/game.py`).  Python dictionaries keyed by
objects are embedded as association lists (first occurrence wins for key
lookup and key update, mirroring unique dict keys; the derived
coordinate-to-object views keep the last entry for a coordinate, mirroring
the `{v: k for k, v in d.items()}` comprehensions).  Bernoulli trials and
uniform random choice are injected as explicit parameters, matching the
spec's requirement that randomness be an injectable source.  A Python
exception that the source does not catch is embedded as an `Option`/`Except`
failure value.
-/

set_option maxRecDepth 8000

namespace Ascifight

/-- Integer grid coordinates, from `board/data.py` `Coordinates`.  The pydantic
validator restricts both components to `[0, map_size - 1]`; in-bounds-ness is
carried as a hypothesis where it matters. -/
structure Coordinates where
  x : Int
  y : Int
deriving DecidableEq, Repr

/-- Teams, from `board/data.py` `Team`: identity and equality are by name. -/
structure Team where
  name : String
deriving DecidableEq, Repr

/-- The four movement directions of `board/computations.py`. -/
inductive Directions where
  | left
  | right
  | down
  | up
deriving DecidableEq, Repr

/-- Whether a coordinate lies on the `n × n` map. -/
def Coordinates.inBounds (c : Coordinates) (n : Int) : Prop :=
  0 ≤ c.x ∧ c.x ≤ n - 1 ∧ 0 ≤ c.y ∧ c.y ≤ n - 1

instance (c : Coordinates) (n : Int) : Decidable (c.inBounds n) := by
  unfold Coordinates.inBounds; infer_instance

/-- `calc_target_coordinates` from `board/computations.py` (lines 15-30):
one step in the given direction, clamped to `[0, map_size - 1]` on the moved
axis, no wraparound. -/
def calcTargetCoordinates (c : Coordinates) (d : Directions) (mapSize : Int) :
    Coordinates :=
  match d with
  | .right => { c with x := min (c.x + 1) (mapSize - 1) }
  | .left => { c with x := max (c.x - 1) 0 }
  | .up => { c with y := min (c.y + 1) (mapSize - 1) }
  | .down => { c with y := max (c.y - 1) 0 }

/-- A coordinate is at the map edge in the given direction. -/
def atEdge (c : Coordinates) (d : Directions) (n : Int) : Prop :=
  match d with
  | .right => c.x = n - 1
  | .left => c.x = 0
  | .up => c.y = n - 1
  | .down => c.y = 0

instance (c : Coordinates) (d : Directions) (n : Int) : Decidable (atEdge c d n) := by
  unfold atEdge; cases d <;> infer_instance

/-- C9: for every direction and every in-bounds coordinate,
`calc_target_coordinates` stays within `[0, map_size - 1]` on each axis, and
at the edge in the step direction it is idempotent: stepping again in the
same direction returns the same coordinates. -/
theorem calcTargetCoordinates_bounds_and_edge_idem
    (c : Coordinates) (d : Directions) (n : Int)
    (hn : 1 ≤ n) (hc : c.inBounds n) :
    (calcTargetCoordinates c d n).inBounds n ∧
      (atEdge c d n →
        calcTargetCoordinates (calcTargetCoordinates c d n) d n =
          calcTargetCoordinates c d n) := by
  obtain ⟨h1, h2, h3, h4⟩ := hc
  obtain ⟨x, y⟩ := c
  cases d <;>
    refine ⟨?_, fun he => ?_⟩ <;>
    dsimp only [calcTargetCoordinates, Coordinates.inBounds, atEdge] at * <;>
    (try simp only [Coordinates.mk.injEq, true_and, and_true]) <;>
    omega

/-- Witness for C9 at the test suite's own input `(14, 10)`, direction
`right`, map size `15`. -/
theorem calcTargetCoordinates_bounds_and_edge_idem_witness :
    (calcTargetCoordinates ⟨14, 10⟩ .right 15).inBounds 15 ∧
      (atEdge ⟨14, 10⟩ .right 15 →
        calcTargetCoordinates (calcTargetCoordinates ⟨14, 10⟩ .right 15) .right 15 =
          calcTargetCoordinates ⟨14, 10⟩ .right 15) :=
  calcTargetCoordinates_bounds_and_edge_idem ⟨14, 10⟩ .right 15 (by decide)
    (by decide)

/-! ## Board data model, from `board/data.py` -/

/-- An actor, from `board/data.py` `Actor` and its capability subclasses:
identity is `(ident, team)`, the capability profile holds the grab / attack /
build / destroy probabilities, and `flag` is the carried-flag link (a flag is
identified by its owning team).  Probabilities are embedded as rationals;
only their zero test and the injected Bernoulli outcomes matter. -/
structure Actor where
  ident : Nat
  team : Team
  grab : ℚ
  attack : ℚ
  build : ℚ
  destroy : ℚ
  flag : Option Team
deriving DecidableEq, Repr

/-- `BoardData` from `board/data.py`: the positional dictionaries
`actors_coordinates`, `flags_coordinates`, `bases_coordinates` (as
association lists in insertion order) and the wall-coordinate set (as a
duplicate-free list). -/
structure BoardData where
  mapSize : Int
  actors : List (Actor × Coordinates)
  flags : List (Team × Coordinates)
  bases : List (Team × Coordinates)
  walls : List Coordinates
deriving DecidableEq, Repr

/-- Dictionary identity of an actor: `(ident, team)`, mirroring
`Actor.__eq__` / `__hash__`. -/
abbrev ActorId := Nat × Team

/-- Does the entry belong to the actor with the given identity? -/
def actorKeyed (aid : ActorId) (e : Actor × Coordinates) : Bool :=
  decide (e.1.ident = aid.1 ∧ e.1.team = aid.2)

/-- `actors_coordinates[actor]` as a total lookup: the stored record and its
coordinates, or `none` when the actor is not on the board (Python raises
`KeyError` there). -/
def BoardData.findActor (b : BoardData) (aid : ActorId) :
    Option (Actor × Coordinates) :=
  b.actors.find? (actorKeyed aid)

/-- `coordinates_actors.get(c)`: the reversed dictionary keeps the last entry
whose value is `c`. -/
def BoardData.actorAt (b : BoardData) (c : Coordinates) : Option Actor :=
  ((b.actors.filter (fun e => decide (e.2 = c))).getLast?).map (·.1)

/-- `coordinates_bases.get(c)`, by owning team. -/
def BoardData.baseAt (b : BoardData) (c : Coordinates) : Option Team :=
  ((b.bases.filter (fun e => decide (e.2 = c))).getLast?).map (·.1)

/-- `coordinates_flags.get(c)`, by owning team (last entry wins, as in the
`{v: k for k, v in ...}` comprehension). -/
def BoardData.flagAt (b : BoardData) (c : Coordinates) : Option Team :=
  ((b.flags.filter (fun e => decide (e.2 = c))).getLast?).map (·.1)

/-- `flags_coordinates[Flag(team=t)]` as a total lookup. -/
def BoardData.flagCoords (b : BoardData) (t : Team) : Option Coordinates :=
  (b.flags.find? (fun e => decide (e.1 = t))).map (·.2)

/-- `bases_coordinates[Base(team=t)]` as a total lookup. -/
def BoardData.baseCoords (b : BoardData) (t : Team) : Option Coordinates :=
  (b.bases.find? (fun e => decide (e.1 = t))).map (·.2)

/-- Dictionary assignment `d[k] = v`: replace the value at the first (unique)
matching key, or append the new binding, preserving insertion order. -/
def setPair {κ α : Type} [DecidableEq κ] (k : κ) (v : α) :
    List (κ × α) → List (κ × α)
  | [] => [(k, v)]
  | e :: es => if e.1 = k then (k, v) :: es else e :: setPair k v es

/-- Update the first entry satisfying `p` (dictionary keys are unique, so
this is dictionary update for an existing key). -/
def updateFirst {α : Type} (p : α → Bool) (f : α → α) : List α → List α
  | [] => []
  | x :: xs => if p x then f x :: xs else x :: updateFirst p f xs

/-- `actors_coordinates[actor] = c` for an actor already on the board. -/
def BoardData.setActorCoords (b : BoardData) (aid : ActorId) (c : Coordinates) :
    BoardData :=
  { b with actors := updateFirst (actorKeyed aid) (fun e => (e.1, c)) b.actors }

/-- `actor.flag = f` — the carried-flag link of the stored actor record. -/
def BoardData.setActorFlag (b : BoardData) (aid : ActorId) (f : Option Team) :
    BoardData :=
  { b with
    actors :=
      updateFirst (actorKeyed aid) (fun e => ({ e.1 with flag := f }, e.2))
        b.actors }

/-- `flags_coordinates[flag] = c`. -/
def BoardData.setFlagCoords (b : BoardData) (t : Team) (c : Coordinates) :
    BoardData :=
  { b with flags := setPair t c b.flags }

/-- `walls_coordinates.add(c)` — set insertion. -/
def insertWall (c : Coordinates) (ws : List Coordinates) : List Coordinates :=
  if c ∈ ws then ws else ws ++ [c]

/-! ## Resolution engine, from `board/actions.py` -/

/-- `_try_put_actor` (board/actions.py lines 321-347): reject when the
destination equals the current coordinates (clamped boundary step), or holds
another actor, a base, or a wall; otherwise relocate the actor and its
carried flag.  `none` models the `KeyError` for an actor that is not on the
board. -/
def tryPutActor (b : BoardData) (aid : ActorId) (newC : Coordinates) :
    Option (Bool × BoardData) :=
  match b.findActor aid with
  | none => none
  | some (a, c) =>
    if c = newC then some (false, b)
    else if (b.actorAt newC).isSome then some (false, b)
    else if (b.baseAt newC).isSome then some (false, b)
    else if newC ∈ b.walls then some (false, b)
    else
      let b1 := b.setActorCoords aid newC
      let b2 :=
        match a.flag with
        | some f => b1.setFlagCoords f newC
        | none => b1
      some (true, b2)

/-- The loop body of `_check_capture_conditions` (board/actions.py lines
227-254) for one flag `t`: if the flag sits on a base of a different team,
capture exactly when the scoring team's own flag is at its own base or
`home_flag_required` is off; a capture returns the flag to its owner's base.
`none` models the `KeyError`s on the dictionary lookups. -/
def captureStep (hfr : Bool) (b : BoardData) (t : Team) :
    Option (Option Team × BoardData) :=
  match b.flagCoords t with
  | none => none
  | some cf =>
    match b.baseAt cf with
    | none => some (none, b)
    | some u =>
      if t = u then some (none, b)
      else
        match b.flagCoords u, b.baseCoords u with
        | some ownFlag, some ownBase =>
          if ownFlag = ownBase ∨ hfr = false then
            match b.baseCoords t with
            | none => none
            | some home => some (some u, b.setFlagCoords t home)
          else some (none, b)
        | _, _ => none

/-- The `for flag_to_capture in flags` loop of `_check_capture_conditions`:
`team_that_captured` keeps the last captured-for team. -/
def captureLoop (hfr : Bool) :
    List Team → Option Team → BoardData → Option (Option Team × BoardData)
  | [], acc, b => some (acc, b)
  | t :: ts, acc, b =>
    match captureStep hfr b t with
    | none => none
    | some (r, b') =>
      captureLoop hfr ts
        (match r with
          | some s => some s
          | none => acc)
        b'

/-- `_check_capture_conditions` (board/actions.py lines 218-255): check one
given flag, or every flag on the board. -/
def checkCaptureConditions (hfr : Bool) (b : BoardData)
    (flagToCapture : Option Team) : Option (Option Team × BoardData) :=
  let flagList :=
    match flagToCapture with
    | some t => [t]
    | none => b.flags.map (·.1)
  captureLoop hfr flagList none b

/-- `_check_flag_return_conditions` (board/actions.py lines 281-292): if the
actor's coordinates hold a flag of its own team, return that flag to its home
base, rerun the global capture check, and clear the actor's carried-flag
link. -/
def checkFlagReturnConditions (hfr : Bool) (b : BoardData) (aid : ActorId) :
    Option (Option Team × BoardData) :=
  match b.findActor aid with
  | none => none
  | some (a, c) =>
    match b.flagAt c with
    | none => some (none, b)
    | some ft =>
      if ft = a.team then
        match b.baseCoords ft with
        | none => none
        | some bc =>
          let b1 := b.setFlagCoords ft bc
          match checkCaptureConditions hfr b1 none with
          | none => none
          | some (tc, b2) =>
            match b2.findActor aid with
            | none => none
            | some (a2, _) =>
              if a2.flag.isSome then some (tc, b2.setActorFlag aid none)
              else some (tc, b2)
      else some (none, b)

/-- `BoardActions.move` (board/actions.py lines 55-63): clamp one step, try to
relocate, then run the flag-return check. -/
def move (hfr : Bool) (b : BoardData) (aid : ActorId) (d : Directions) :
    Option (Bool × Option Team × BoardData) :=
  match b.findActor aid with
  | none => none
  | some (_, c) =>
    match tryPutActor b aid (calcTargetCoordinates c d b.mapSize) with
    | none => none
    | some (false, b') => some (false, none, b')
    | some (true, b') =>
      (checkFlagReturnConditions hfr b' aid).map (fun r => (true, r.1, r.2))

/-! ## Dictionary lemmas -/

theorem find?_setPair {κ α : Type} [DecidableEq κ] (k : κ) (v : α)
    (l : List (κ × α)) :
    ((setPair k v l).find? (fun e => decide (e.1 = k))).map (·.2) = some v := by
  induction l with
  | nil => simp [setPair]
  | cons e es ih =>
    by_cases h : e.1 = k
    · simp [setPair, h]
    · simp only [setPair, if_neg h]
      rw [List.find?_cons_of_neg _ (by simp [h])]
      exact ih

theorem find?_updateFirst {α : Type} (p : α → Bool) (f : α → α) (l : List α)
    (hp : ∀ x, p x = true → p (f x) = true) :
    (updateFirst p f l).find? p = (l.find? p).map f := by
  induction l with
  | nil => simp [updateFirst]
  | cons x xs ih =>
    by_cases h : p x = true
    · simp only [updateFirst, if_pos h]
      rw [List.find?_cons_of_pos _ (hp x h), List.find?_cons_of_pos _ h]
      rfl
    · simp only [updateFirst, if_neg h]
      rw [List.find?_cons_of_neg _ (by simp [h]),
        List.find?_cons_of_neg _ (by simp [h])]
      exact ih

theorem findActor_setActorCoords (b : BoardData) (aid : ActorId)
    (c' : Coordinates) (a : Actor) (c : Coordinates)
    (hfind : b.findActor aid = some (a, c)) :
    (b.setActorCoords aid c').findActor aid = some (a, c') := by
  have h :=
    find?_updateFirst (actorKeyed aid) (fun e => (e.1, c')) b.actors
      (fun x hx => hx)
  unfold BoardData.findActor BoardData.setActorCoords at *
  dsimp only
  rw [h, hfind]
  rfl

theorem findActor_setFlagCoords (b : BoardData) (aid : ActorId) (t : Team)
    (c : Coordinates) :
    (b.setFlagCoords t c).findActor aid = b.findActor aid := rfl

theorem flagCoords_setFlagCoords (b : BoardData) (t : Team) (c : Coordinates) :
    (b.setFlagCoords t c).flagCoords t = some c :=
  find?_setPair t c b.flags

/-! ## C1: capture check -/

/-- C1: for the flag considered by a single-flag capture check, a capturing
team is credited (returned) iff the flag sits on a base of a different team
and either `home_flag_required` is off or that team's own flag is at its own
base; a credited capture resets the captured flag to its owner's base, and a
rejected check leaves the board unchanged. -/
theorem capture_check_single (hfr : Bool) (b : BoardData) (t : Team)
    (cf : Coordinates) (hf : b.flagCoords t = some cf)
    (hhome : (b.baseCoords t).isSome)
    (hbase : ∀ u, b.baseAt cf = some u →
      (b.flagCoords u).isSome ∧ (b.baseCoords u).isSome) :
    ∃ r b', checkCaptureConditions hfr b (some t) = some (r, b') ∧
      (r.isSome ↔ ∃ u, b.baseAt cf = some u ∧ u ≠ t ∧
        (hfr = false ∨ b.flagCoords u = b.baseCoords u)) ∧
      (∀ u, b.baseAt cf = some u → u ≠ t →
        (hfr = false ∨ b.flagCoords u = b.baseCoords u) →
        r = some u ∧ b'.flagCoords t = b.baseCoords t) ∧
      (r = none → b' = b) := by
  have hmain : ∀ r b', captureStep hfr b t = some (r, b') →
      checkCaptureConditions hfr b (some t) = some (r, b') := by
    intro r b' h
    simp only [checkCaptureConditions, captureLoop, h]
    cases r <;> rfl
  rcases hu : b.baseAt cf with _ | u
  · refine ⟨none, b, hmain _ _ ?_, ?_, ?_, fun _ => rfl⟩
    · simp [captureStep, hf, hu]
    · simp [hu]
    · intro u h
      exact absurd h (by simp)
  · obtain ⟨hfu, hbu⟩ := hbase u hu
    rcases hfc : b.flagCoords u with _ | fc
    · rw [hfc] at hfu; cases hfu
    rcases hbc : b.baseCoords u with _ | bc
    · rw [hbc] at hbu; cases hbu
    by_cases htu : t = u
    · subst htu
      refine ⟨none, b, hmain _ _ ?_, ?_, ?_, fun _ => rfl⟩
      · simp [captureStep, hf, hu]
      · simp only [Option.isSome_none, Bool.false_eq_true, false_iff]
        rintro ⟨u', hu', hne, _⟩
        cases hu'
        exact hne rfl
      · intro u' hu' hne
        cases hu'
        exact absurd rfl hne
    · by_cases hcond : fc = bc ∨ hfr = false
      · rcases hh : b.baseCoords t with _ | home
        · rw [hh] at hhome; cases hhome
        refine ⟨some u, b.setFlagCoords t home, hmain _ _ ?_, ?_, ?_, ?_⟩
        · simp [captureStep, hf, hu, htu, hfc, hbc, hcond, hh]
        · simp only [Option.isSome_some, true_iff]
          refine ⟨u, rfl, fun h => htu h.symm, ?_⟩
          rcases hcond with h | h
          · exact Or.inr (by rw [hfc, hbc, h])
          · exact Or.inl h
        · intro u' hu' _ _
          cases hu'
          exact ⟨rfl, by rw [flagCoords_setFlagCoords]⟩
        · intro h; cases h
      · refine ⟨none, b, hmain _ _ ?_, ?_, ?_, fun _ => rfl⟩
        · simp only [captureStep, hf, hu, if_neg htu, hfc, hbc]
          rw [if_neg hcond]
        · simp only [Option.isSome_none, Bool.false_eq_true, false_iff]
          rintro ⟨u', hu', _, hc⟩
          cases hu'
          rw [hfc, hbc] at hc
          rcases hc with h | h
          · exact hcond (Or.inr h)
          · exact hcond (Or.inl (Option.some.inj h))
        · intro u' hu' _ hc
          cases hu'
          rw [hfc, hbc] at hc
          rcases hc with h | h
          · exact absurd (Or.inr h) hcond
          · exact absurd (Or.inl (Option.some.inj h)) hcond

/-- Witness for C1: two teams, team `B`'s flag lying on team `A`'s base while
`A`'s own flag is at home; the capture is credited to `A` and `B`'s flag is
reset to `B`'s base. -/
theorem capture_check_single_witness :
    ∃ r b', checkCaptureConditions true
        ⟨10, [], [(⟨"A"⟩, ⟨1, 1⟩), (⟨"B"⟩, ⟨1, 1⟩)],
          [(⟨"A"⟩, ⟨1, 1⟩), (⟨"B"⟩, ⟨8, 8⟩)], []⟩ (some ⟨"B"⟩) =
        some (r, b') ∧
      (r.isSome ↔ ∃ u,
        BoardData.baseAt
            ⟨10, [], [(⟨"A"⟩, ⟨1, 1⟩), (⟨"B"⟩, ⟨1, 1⟩)],
              [(⟨"A"⟩, ⟨1, 1⟩), (⟨"B"⟩, ⟨8, 8⟩)], []⟩ ⟨1, 1⟩ = some u ∧
          u ≠ ⟨"B"⟩ ∧
          (true = false ∨
            BoardData.flagCoords
                ⟨10, [], [(⟨"A"⟩, ⟨1, 1⟩), (⟨"B"⟩, ⟨1, 1⟩)],
                  [(⟨"A"⟩, ⟨1, 1⟩), (⟨"B"⟩, ⟨8, 8⟩)], []⟩ u =
              BoardData.baseCoords
                ⟨10, [], [(⟨"A"⟩, ⟨1, 1⟩), (⟨"B"⟩, ⟨1, 1⟩)],
                  [(⟨"A"⟩, ⟨1, 1⟩), (⟨"B"⟩, ⟨8, 8⟩)], []⟩ u)) ∧
      (∀ u,
        BoardData.baseAt
            ⟨10, [], [(⟨"A"⟩, ⟨1, 1⟩), (⟨"B"⟩, ⟨1, 1⟩)],
              [(⟨"A"⟩, ⟨1, 1⟩), (⟨"B"⟩, ⟨8, 8⟩)], []⟩ ⟨1, 1⟩ = some u →
        u ≠ ⟨"B"⟩ →
        (true = false ∨
          BoardData.flagCoords
              ⟨10, [], [(⟨"A"⟩, ⟨1, 1⟩), (⟨"B"⟩, ⟨1, 1⟩)],
                [(⟨"A"⟩, ⟨1, 1⟩), (⟨"B"⟩, ⟨8, 8⟩)], []⟩ u =
            BoardData.baseCoords
              ⟨10, [], [(⟨"A"⟩, ⟨1, 1⟩), (⟨"B"⟩, ⟨1, 1⟩)],
                [(⟨"A"⟩, ⟨1, 1⟩), (⟨"B"⟩, ⟨8, 8⟩)], []⟩ u) →
        r = some u ∧
          b'.flagCoords ⟨"B"⟩ =
            BoardData.baseCoords
              ⟨10, [], [(⟨"A"⟩, ⟨1, 1⟩), (⟨"B"⟩, ⟨1, 1⟩)],
                [(⟨"A"⟩, ⟨1, 1⟩), (⟨"B"⟩, ⟨8, 8⟩)], []⟩ ⟨"B"⟩) ∧
      (r = none →
        b' =
          ⟨10, [], [(⟨"A"⟩, ⟨1, 1⟩), (⟨"B"⟩, ⟨1, 1⟩)],
            [(⟨"A"⟩, ⟨1, 1⟩), (⟨"B"⟩, ⟨8, 8⟩)], []⟩) :=
  capture_check_single true
    ⟨10, [], [(⟨"A"⟩, ⟨1, 1⟩), (⟨"B"⟩, ⟨1, 1⟩)],
      [(⟨"A"⟩, ⟨1, 1⟩), (⟨"B"⟩, ⟨8, 8⟩)], []⟩ ⟨"B"⟩ ⟨1, 1⟩ (by decide)
    (by decide) (by decide)

/-! ## C6: move resolution -/

/-- C6: a Move whose clamped destination holds another actor, a base, or a
wall leaves the board unchanged and fails; a step past the boundary clamps to
the current coordinates and fails as a "did not move" no-op; on success the
actor (and its carried flag) is relocated to the destination and then the
flag-return check runs on the result. -/
theorem move_semantics (hfr : Bool) (b : BoardData) (aid : ActorId)
    (d : Directions) (a : Actor) (c : Coordinates)
    (hfind : b.findActor aid = some (a, c)) :
    (calcTargetCoordinates c d b.mapSize = c →
      move hfr b aid d = some (false, none, b)) ∧
    (∀ newC, calcTargetCoordinates c d b.mapSize = newC → newC ≠ c →
      ((b.actorAt newC).isSome ∨ (b.baseAt newC).isSome ∨ newC ∈ b.walls) →
      move hfr b aid d = some (false, none, b)) ∧
    (∀ newC, calcTargetCoordinates c d b.mapSize = newC → newC ≠ c →
      b.actorAt newC = none → b.baseAt newC = none → newC ∉ b.walls →
      ∃ bMid, bMid.findActor aid = some (a, newC) ∧
        (∀ f, a.flag = some f → bMid.flagCoords f = some newC) ∧
        move hfr b aid d =
          (checkFlagReturnConditions hfr bMid aid).map
            (fun r => (true, r.1, r.2))) := by
  refine ⟨?_, ?_, ?_⟩
  · intro h
    simp [move, hfind, tryPutActor, h]
  · intro newC hnc hne hocc
    have hcn : ¬(c = newC) := fun h => hne h.symm
    rcases hocc with h | h | h
    · simp [move, hfind, tryPutActor, hnc, hcn, h]
    · rcases ha : b.actorAt newC with _ | a'
      · simp [move, hfind, tryPutActor, hnc, hcn, ha, h]
      · simp [move, hfind, tryPutActor, hnc, hcn, ha]
    · rcases ha : b.actorAt newC with _ | a'
      · rcases hb : b.baseAt newC with _ | u
        · simp [move, hfind, tryPutActor, hnc, hcn, ha, hb, h]
        · simp [move, hfind, tryPutActor, hnc, hcn, ha, hb]
      · simp [move, hfind, tryPutActor, hnc, hcn, ha]
  · intro newC hnc hne ha hb hw
    have hcn : ¬(c = newC) := fun h => hne h.symm
    refine ⟨match a.flag with
      | some f => (b.setActorCoords aid newC).setFlagCoords f newC
      | none => b.setActorCoords aid newC, ?_, ?_, ?_⟩
    · rcases haf : a.flag with _ | f <;>
        simp only [findActor_setFlagCoords] <;>
        exact findActor_setActorCoords b aid newC a c hfind
    · intro f haf
      rw [haf]
      exact flagCoords_setFlagCoords _ f newC
    · simp [move, hfind, tryPutActor, hnc, hcn, ha, hb, hw]

/-- Witness for C6 at a concrete board: an actor at `(0, 0)` carrying team
`A`'s flag moves right onto the free cell `(1, 0)`. -/
theorem move_semantics_witness :
    (calcTargetCoordinates ⟨0, 0⟩ .right 10 = ⟨0, 0⟩ →
      move false
          ⟨10, [(⟨0, ⟨"A"⟩, 1, 1, 0, 0, some ⟨"A"⟩⟩, ⟨0, 0⟩)],
            [(⟨"A"⟩, ⟨0, 0⟩)], [(⟨"A"⟩, ⟨5, 5⟩)], []⟩ (0, ⟨"A"⟩) .right =
        some (false, none,
          ⟨10, [(⟨0, ⟨"A"⟩, 1, 1, 0, 0, some ⟨"A"⟩⟩, ⟨0, 0⟩)],
            [(⟨"A"⟩, ⟨0, 0⟩)], [(⟨"A"⟩, ⟨5, 5⟩)], []⟩)) ∧
    (∀ newC, calcTargetCoordinates ⟨0, 0⟩ .right 10 = newC → newC ≠ ⟨0, 0⟩ →
      ((BoardData.actorAt
          ⟨10, [(⟨0, ⟨"A"⟩, 1, 1, 0, 0, some ⟨"A"⟩⟩, ⟨0, 0⟩)],
            [(⟨"A"⟩, ⟨0, 0⟩)], [(⟨"A"⟩, ⟨5, 5⟩)], []⟩ newC).isSome ∨
        (BoardData.baseAt
          ⟨10, [(⟨0, ⟨"A"⟩, 1, 1, 0, 0, some ⟨"A"⟩⟩, ⟨0, 0⟩)],
            [(⟨"A"⟩, ⟨0, 0⟩)], [(⟨"A"⟩, ⟨5, 5⟩)], []⟩ newC).isSome ∨
        newC ∈ BoardData.walls
          ⟨10, [(⟨0, ⟨"A"⟩, 1, 1, 0, 0, some ⟨"A"⟩⟩, ⟨0, 0⟩)],
            [(⟨"A"⟩, ⟨0, 0⟩)], [(⟨"A"⟩, ⟨5, 5⟩)], []⟩) →
      move false
          ⟨10, [(⟨0, ⟨"A"⟩, 1, 1, 0, 0, some ⟨"A"⟩⟩, ⟨0, 0⟩)],
            [(⟨"A"⟩, ⟨0, 0⟩)], [(⟨"A"⟩, ⟨5, 5⟩)], []⟩ (0, ⟨"A"⟩) .right =
        some (false, none,
          ⟨10, [(⟨0, ⟨"A"⟩, 1, 1, 0, 0, some ⟨"A"⟩⟩, ⟨0, 0⟩)],
            [(⟨"A"⟩, ⟨0, 0⟩)], [(⟨"A"⟩, ⟨5, 5⟩)], []⟩)) ∧
    (∀ newC, calcTargetCoordinates ⟨0, 0⟩ .right 10 = newC → newC ≠ ⟨0, 0⟩ →
      BoardData.actorAt
          ⟨10, [(⟨0, ⟨"A"⟩, 1, 1, 0, 0, some ⟨"A"⟩⟩, ⟨0, 0⟩)],
            [(⟨"A"⟩, ⟨0, 0⟩)], [(⟨"A"⟩, ⟨5, 5⟩)], []⟩ newC = none →
      BoardData.baseAt
          ⟨10, [(⟨0, ⟨"A"⟩, 1, 1, 0, 0, some ⟨"A"⟩⟩, ⟨0, 0⟩)],
            [(⟨"A"⟩, ⟨0, 0⟩)], [(⟨"A"⟩, ⟨5, 5⟩)], []⟩ newC = none →
      newC ∉ BoardData.walls
          ⟨10, [(⟨0, ⟨"A"⟩, 1, 1, 0, 0, some ⟨"A"⟩⟩, ⟨0, 0⟩)],
            [(⟨"A"⟩, ⟨0, 0⟩)], [(⟨"A"⟩, ⟨5, 5⟩)], []⟩ →
      ∃ bMid, bMid.findActor (0, ⟨"A"⟩) =
          some (⟨0, ⟨"A"⟩, 1, 1, 0, 0, some ⟨"A"⟩⟩, newC) ∧
        (∀ f, (Actor.flag ⟨0, ⟨"A"⟩, 1, 1, 0, 0, some ⟨"A"⟩⟩) = some f →
          bMid.flagCoords f = some newC) ∧
        move false
            ⟨10, [(⟨0, ⟨"A"⟩, 1, 1, 0, 0, some ⟨"A"⟩⟩, ⟨0, 0⟩)],
              [(⟨"A"⟩, ⟨0, 0⟩)], [(⟨"A"⟩, ⟨5, 5⟩)], []⟩ (0, ⟨"A"⟩) .right =
          (checkFlagReturnConditions false bMid (0, ⟨"A"⟩)).map
            (fun r => (true, r.1, r.2))) :=
  move_semantics false
    ⟨10, [(⟨0, ⟨"A"⟩, 1, 1, 0, 0, some ⟨"A"⟩⟩, ⟨0, 0⟩)],
      [(⟨"A"⟩, ⟨0, 0⟩)], [(⟨"A"⟩, ⟨5, 5⟩)], []⟩ (0, ⟨"A"⟩) .right
    ⟨0, ⟨"A"⟩, 1, 1, 0, 0, some ⟨"A"⟩⟩ ⟨0, 0⟩ (by decide)

/-! ## Destroy, build, grab/put, attack, respawn -/

/-- `BoardActions.destroy` (board/actions.py lines 116-136): reject when the
actor's destroy probability is zero or the destination holds no wall; on the
Bernoulli trial (`success` injects `random.random() < actor.destroy`) the
source executes `self.board_data.walls_coordinates.add(target_coordinates)`
(line 135). -/
def destroy (success : Bool) (b : BoardData) (aid : ActorId) (d : Directions) :
    Option (Bool × BoardData) :=
  match b.findActor aid with
  | none => none
  | some (a, c) =>
    if a.destroy = 0 then some (false, b)
    else
      let target := calcTargetCoordinates c d b.mapSize
      if target ∈ b.walls then
        if success then
          some (true, { b with walls := insertWall target b.walls })
        else some (true, b)
      else some (false, b)

/-- `BoardActions.build` (board/actions.py lines 90-114): reject when the
actor's build probability is zero or the destination holds an actor, base,
flag, or wall; on Bernoulli success add a wall at the destination. -/
def build (success : Bool) (b : BoardData) (aid : ActorId) (d : Directions) :
    Option (Bool × BoardData) :=
  match b.findActor aid with
  | none => none
  | some (a, c) =>
    if a.build = 0 then some (false, b)
    else
      let target := calcTargetCoordinates c d b.mapSize
      if (b.actorAt target).isSome ∨ (b.baseAt target).isSome ∨
          (b.flagAt target).isSome ∨ target ∈ b.walls then
        some (false, b)
      else if success then
        some (true, { b with walls := insertWall target b.walls })
      else some (true, b)

/-- `BoardActions.grabput_flag` (board/actions.py lines 138-216): hand the
carried flag to an adjacent actor or drop it on the ground (running the
capture check), or grab a flag from the destination (running the flag-return
check).  `success` injects `random.random() < actor.grab`. -/
def grabputFlag (success : Bool) (hfr : Bool) (b : BoardData) (aid : ActorId)
    (d : Directions) : Option (Bool × Option Team × BoardData) :=
  match b.findActor aid with
  | none => none
  | some (a, c) =>
    let target := calcTargetCoordinates c d b.mapSize
    match a.flag with
    | some f =>
      match b.actorAt target with
      | some ta =>
        if ta.grab = 0 then some (false, none, b)
        else if ta.flag.isSome then some (false, none, b)
        else
          let b1 := b.setFlagCoords f target
          let b2 := b1.setActorFlag aid none
          let b3 := b2.setActorFlag (ta.ident, ta.team) (some f)
          match checkFlagReturnConditions hfr b3 (ta.ident, ta.team) with
          | none => none
          | some (tc, b4) => some (true, tc, b4)
      | none =>
        if target ∈ b.walls then some (false, none, b)
        else
          let b1 := b.setFlagCoords f target
          let b2 := b1.setActorFlag aid none
          match checkCaptureConditions hfr b2 (some f) with
          | none => none
          | some (tc, b3) => some (true, tc, b3)
    | none =>
      match b.flagAt target with
      | none => some (false, none, b)
      | some f =>
        if success then
          let b1 := b.setFlagCoords f c
          let b2 := b1.setActorFlag aid (some f)
          let b3 :=
            match b2.actorAt target with
            | some ta => b2.setActorFlag (ta.ident, ta.team) none
            | none => b2
          match checkFlagReturnConditions hfr b3 aid with
          | none => none
          | some (tc, b4) => some (true, tc, b4)
        else some (false, none, b)

/-- `random.choice` over a list, with the uniform choice injected as an index
`k`; `none` models the `IndexError` raised on an empty sequence. -/
def choose {α : Type} (l : List α) (k : Nat) : Option α :=
  l.get? (k % l.length)

/-- The in-bounds cells of the 5×5 area centered on `center` (`_respawn`'s
double loop over offsets `-2..+2`, discarding coordinates whose validation
fails). -/
def areaPoints (center : Coordinates) (n : Int) : List Coordinates :=
  ((List.range 5).map fun i =>
    (List.range 5).filterMap fun j =>
      let x := center.x - 2 + (i : Int)
      let y := center.y - 2 + (j : Int)
      if 0 ≤ x ∧ x ≤ n - 1 ∧ 0 ≤ y ∧ y ≤ n - 1 then
        some ⟨x, y⟩
      else none).flatten

/-- The forbidden respawn cells of `_respawn`: every flag, actor, base, and
wall position. -/
def forbiddenPositions (b : BoardData) : List Coordinates :=
  b.flags.map (·.2) ++ b.actors.map (·.2) ++ b.bases.map (·.2) ++ b.walls

/-- `_place_actor_in_area` (board/actions.py lines 294-306): pick an allowed
position (possible minus forbidden), drop any carried flag link, and place
the actor there.  `none` models the unhandled `IndexError` from
`random.choice(list(allowed_positions))` when no position is allowed. -/
def placeActorInArea (k : Nat) (b : BoardData) (aid : ActorId)
    (possible : List Coordinates) (forbidden : List Coordinates) :
    Option BoardData :=
  let allowed := possible.filter (fun c => decide (c ∉ forbidden))
  match choose allowed k with
  | none => none
  | some target =>
    match b.findActor aid with
    | none => none
    | some (a, _) =>
      let b1 := if a.flag.isSome then b.setActorFlag aid none else b
      some (b1.setActorCoords aid target)

/-- `_respawn` (board/actions.py lines 257-274): place the actor in the 5×5
area around its team's base, avoiding all occupied cells. -/
def respawn (k : Nat) (b : BoardData) (aid : ActorId) : Option BoardData :=
  match b.baseCoords aid.2 with
  | none => none
  | some bc =>
    placeActorInArea k b aid (areaPoints bc b.mapSize) (forbiddenPositions b)

/-- `BoardActions.attack` (board/actions.py lines 65-88): no-op when the
attack probability is zero or no actor stands at the destination; on
Bernoulli success respawn the target and credit the attacker's team. -/
def attack (k : Nat) (success : Bool) (b : BoardData) (aid : ActorId)
    (d : Directions) : Option (Bool × Option Team × BoardData) :=
  match b.findActor aid with
  | none => none
  | some (a, c) =>
    if a.attack = 0 then some (false, none, b)
    else
      let target := calcTargetCoordinates c d b.mapSize
      match b.actorAt target with
      | none => some (false, none, b)
      | some ta =>
        if success then
          match respawn k b (ta.ident, ta.team) with
          | none => none
          | some b' => some (true, some a.team, b')
        else some (true, none, b)

/-! ## C2: destroy leaves the wall in place -/

/-- C2 evaluated at the failing input: a Destroyer (destroy probability 1)
facing a wall at `(1, 0)` whose Bernoulli trial succeeds.  The resolution
reports success, yet the destination is still a wall afterwards — the source
adds the coordinates back to the wall set instead of removing them
(board/actions.py line 135), so the board is unchanged. -/
theorem destroy_success_leaves_wall :
    destroy true
        ⟨10, [(⟨0, ⟨"A"⟩, 0, 0, 0, 1, none⟩, ⟨0, 0⟩)], [(⟨"A"⟩, ⟨5, 5⟩)],
          [(⟨"A"⟩, ⟨5, 5⟩)], [⟨1, 0⟩]⟩ (0, ⟨"A"⟩) .right =
      some (true,
        ⟨10, [(⟨0, ⟨"A"⟩, 0, 0, 0, 1, none⟩, ⟨0, 0⟩)], [(⟨"A"⟩, ⟨5, 5⟩)],
          [(⟨"A"⟩, ⟨5, 5⟩)], [⟨1, 0⟩]⟩) ∧
    ⟨1, 0⟩ ∈ BoardData.walls
      ⟨10, [(⟨0, ⟨"A"⟩, 0, 0, 0, 1, none⟩, ⟨0, 0⟩)], [(⟨"A"⟩, ⟨5, 5⟩)],
        [(⟨"A"⟩, ⟨5, 5⟩)], [⟨1, 0⟩]⟩ := by
  constructor
  · rfl
  · decide

/-! ## C10: respawn placement -/

theorem findActor_setActorFlag (b : BoardData) (aid : ActorId) (f : Option Team)
    (a : Actor) (c : Coordinates) (hfind : b.findActor aid = some (a, c)) :
    (b.setActorFlag aid f).findActor aid = some ({ a with flag := f }, c) := by
  have h :=
    find?_updateFirst (actorKeyed aid) (fun e => ({ e.1 with flag := f }, e.2))
      b.actors (fun x hx => hx)
  unfold BoardData.findActor BoardData.setActorFlag at *
  dsimp only
  rw [h, hfind]
  rfl

theorem choose_mem {α : Type} (l : List α) (k : Nat) (h : l ≠ []) :
    ∃ x, choose l k = some x ∧ x ∈ l := by
  have hlen : 0 < l.length := List.length_pos.mpr h
  have hidx : k % l.length < l.length := Nat.mod_lt _ hlen
  exact ⟨l.get ⟨k % l.length, hidx⟩, List.get?_eq_get hidx, List.get_mem _ _ _⟩

/-- C10: when every in-bounds cell of the 5×5 area centered on the dying
actor's home base is occupied (an actor, flag, base, or wall position), the
placement step fails with an unhandled error (`random.choice` over the empty
set); when at least one such cell is free, respawn always succeeds and puts
the actor on a free in-area cell. -/
theorem respawn_area_spec (k : Nat) (b : BoardData) (aid : ActorId)
    (bc : Coordinates) (a : Actor) (c0 : Coordinates)
    (hbc : b.baseCoords aid.2 = some bc)
    (hfind : b.findActor aid = some (a, c0)) :
    ((∀ c ∈ areaPoints bc b.mapSize, c ∈ forbiddenPositions b) →
      respawn k b aid = none) ∧
    ((∃ c ∈ areaPoints bc b.mapSize, c ∉ forbiddenPositions b) →
      ∃ cFree b', respawn k b aid = some b' ∧
        cFree ∈ areaPoints bc b.mapSize ∧ cFree ∉ forbiddenPositions b ∧
        ∃ a', b'.findActor aid = some (a', cFree)) := by
  constructor
  · intro h
    have hnil : (areaPoints bc b.mapSize).filter
        (fun c => !decide (c ∈ forbiddenPositions b)) = [] := by
      rw [List.filter_eq_nil_iff]
      intro c hc
      simp [h c hc]
    simp [respawn, hbc, placeActorInArea, choose, hnil]
  · rintro ⟨c, hca, hcf⟩
    have hmem : c ∈ (areaPoints bc b.mapSize).filter
        (fun c => decide (c ∉ forbiddenPositions b)) :=
      List.mem_filter.mpr ⟨hca, by simpa using hcf⟩
    obtain ⟨target, hchoose, htm⟩ := choose_mem _ k (List.ne_nil_of_mem hmem)
    obtain ⟨htpos, htfor⟩ := List.mem_filter.mp htm
    refine ⟨target,
      (if a.flag.isSome then b.setActorFlag aid none else b).setActorCoords
        aid target,
      ?_, htpos, by simpa using htfor, ?_⟩
    · simp only [respawn, hbc, placeActorInArea, hchoose, hfind]
    · by_cases hfl : a.flag.isSome
      · rw [if_pos hfl]
        exact ⟨{ a with flag := none },
          findActor_setActorCoords _ aid target _ c0
            (findActor_setActorFlag b aid none a c0 hfind)⟩
      · rw [if_neg hfl]
        exact ⟨a, findActor_setActorCoords _ aid target a c0 hfind⟩

/-- Witness for C10: one actor, an empty 10×10 board with a base at
`(1, 1)`; the area has free cells, so respawn succeeds. -/
theorem respawn_area_spec_witness :
    ((∀ c ∈ areaPoints ⟨1, 1⟩
        (BoardData.mapSize
          ⟨10, [(⟨0, ⟨"A"⟩, 1, 1, 0, 0, none⟩, ⟨0, 0⟩)], [(⟨"A"⟩, ⟨1, 1⟩)],
            [(⟨"A"⟩, ⟨1, 1⟩)], []⟩),
        c ∈ forbiddenPositions
          ⟨10, [(⟨0, ⟨"A"⟩, 1, 1, 0, 0, none⟩, ⟨0, 0⟩)], [(⟨"A"⟩, ⟨1, 1⟩)],
            [(⟨"A"⟩, ⟨1, 1⟩)], []⟩) →
      respawn 0
          ⟨10, [(⟨0, ⟨"A"⟩, 1, 1, 0, 0, none⟩, ⟨0, 0⟩)], [(⟨"A"⟩, ⟨1, 1⟩)],
            [(⟨"A"⟩, ⟨1, 1⟩)], []⟩ (0, ⟨"A"⟩) = none) ∧
    ((∃ c ∈ areaPoints ⟨1, 1⟩
        (BoardData.mapSize
          ⟨10, [(⟨0, ⟨"A"⟩, 1, 1, 0, 0, none⟩, ⟨0, 0⟩)], [(⟨"A"⟩, ⟨1, 1⟩)],
            [(⟨"A"⟩, ⟨1, 1⟩)], []⟩),
        c ∉ forbiddenPositions
          ⟨10, [(⟨0, ⟨"A"⟩, 1, 1, 0, 0, none⟩, ⟨0, 0⟩)], [(⟨"A"⟩, ⟨1, 1⟩)],
            [(⟨"A"⟩, ⟨1, 1⟩)], []⟩) →
      ∃ cFree b', respawn 0
          ⟨10, [(⟨0, ⟨"A"⟩, 1, 1, 0, 0, none⟩, ⟨0, 0⟩)], [(⟨"A"⟩, ⟨1, 1⟩)],
            [(⟨"A"⟩, ⟨1, 1⟩)], []⟩ (0, ⟨"A"⟩) = some b' ∧
        cFree ∈ areaPoints ⟨1, 1⟩
          (BoardData.mapSize
            ⟨10, [(⟨0, ⟨"A"⟩, 1, 1, 0, 0, none⟩, ⟨0, 0⟩)], [(⟨"A"⟩, ⟨1, 1⟩)],
              [(⟨"A"⟩, ⟨1, 1⟩)], []⟩) ∧
        cFree ∉ forbiddenPositions
          ⟨10, [(⟨0, ⟨"A"⟩, 1, 1, 0, 0, none⟩, ⟨0, 0⟩)], [(⟨"A"⟩, ⟨1, 1⟩)],
            [(⟨"A"⟩, ⟨1, 1⟩)], []⟩ ∧
        ∃ a', b'.findActor (0, ⟨"A"⟩) = some (a', cFree)) :=
  respawn_area_spec 0
    ⟨10, [(⟨0, ⟨"A"⟩, 1, 1, 0, 0, none⟩, ⟨0, 0⟩)], [(⟨"A"⟩, ⟨1, 1⟩)],
      [(⟨"A"⟩, ⟨1, 1⟩)], []⟩ (0, ⟨"A"⟩) ⟨1, 1⟩ ⟨0, ⟨"A"⟩, 1, 1, 0, 0, none⟩
    ⟨0, 0⟩ (by decide) (by decide)

/-! ## C8: the occupancy invariant -/

/-- The list of all actor coordinates, in dictionary order. -/
def coordsList (b : BoardData) : List Coordinates := b.actors.map (·.2)

/-- The board invariant of the spec: no two actors share a coordinate, and no
actor stands on a wall or base coordinate. -/
def BoardData.coordsOK (b : BoardData) : Prop :=
  (coordsList b).Pairwise (· ≠ ·) ∧
    ∀ c ∈ coordsList b, c ∉ b.walls ∧ ∀ e ∈ b.bases, c ≠ e.2

instance (b : BoardData) : Decidable b.coordsOK := by
  unfold BoardData.coordsOK; infer_instance

/-- Two boards with the same actor coordinates, walls, and bases. -/
def sameOccupancy (b b' : BoardData) : Prop :=
  coordsList b' = coordsList b ∧ b'.walls = b.walls ∧ b'.bases = b.bases

theorem sameOccupancy_refl (b : BoardData) : sameOccupancy b b := ⟨rfl, rfl, rfl⟩

theorem sameOccupancy_trans {b b' b'' : BoardData} (h : sameOccupancy b b')
    (h' : sameOccupancy b' b'') : sameOccupancy b b'' := by
  obtain ⟨h1, h2, h3⟩ := h
  obtain ⟨g1, g2, g3⟩ := h'
  exact ⟨g1.trans h1, g2.trans h2, g3.trans h3⟩

theorem map_updateFirst_eq {α β : Type} (p : α → Bool) (f : α → α) (g : α → β)
    (l : List α) (hg : ∀ x, g (f x) = g x) :
    (updateFirst p f l).map g = l.map g := by
  induction l with
  | nil => rfl
  | cons x xs ih =>
    by_cases h : p x
    · simp [updateFirst, h, hg]
    · simp [updateFirst, h, ih]

theorem sameOccupancy_setFlagCoords (b : BoardData) (t : Team)
    (c : Coordinates) : sameOccupancy b (b.setFlagCoords t c) := ⟨rfl, rfl, rfl⟩

theorem sameOccupancy_setActorFlag (b : BoardData) (aid : ActorId)
    (f : Option Team) : sameOccupancy b (b.setActorFlag aid f) := by
  refine ⟨?_, rfl, rfl⟩
  unfold coordsList BoardData.setActorFlag
  dsimp only
  exact map_updateFirst_eq _ _ _ _ (fun x => rfl)

theorem captureStep_occupancy (hfr : Bool) (b : BoardData) (t : Team)
    (r : Option Team) (b' : BoardData) (h : captureStep hfr b t = some (r, b')) :
    sameOccupancy b b' := by
  unfold captureStep at h
  repeat' split at h
  all_goals cases h
  all_goals first
    | exact sameOccupancy_refl _
    | exact sameOccupancy_setFlagCoords _ _ _

theorem captureLoop_occupancy (hfr : Bool) (ts : List Team) (acc : Option Team)
    (b : BoardData) (r : Option Team) (b' : BoardData)
    (h : captureLoop hfr ts acc b = some (r, b')) : sameOccupancy b b' := by
  induction ts generalizing acc b with
  | nil =>
    unfold captureLoop at h
    cases h
    exact sameOccupancy_refl _
  | cons t ts ih =>
    unfold captureLoop at h
    rcases hs : captureStep hfr b t with _ | ⟨r1, b1⟩
    · rw [hs] at h; cases h
    · rw [hs] at h
      exact sameOccupancy_trans (captureStep_occupancy hfr b t r1 b1 hs) (ih _ _ h)

theorem checkCaptureConditions_occupancy (hfr : Bool) (b : BoardData)
    (arg : Option Team) (r : Option Team) (b' : BoardData)
    (h : checkCaptureConditions hfr b arg = some (r, b')) : sameOccupancy b b' := by
  unfold checkCaptureConditions at h
  exact captureLoop_occupancy hfr _ none b r b' h

theorem checkFlagReturnConditions_occupancy (hfr : Bool) (b : BoardData)
    (aid : ActorId) (r : Option Team) (b' : BoardData)
    (h : checkFlagReturnConditions hfr b aid = some (r, b')) :
    sameOccupancy b b' := by
  unfold checkFlagReturnConditions at h
  rcases hfind : b.findActor aid with _ | ⟨a, c⟩ <;> rw [hfind] at h
  · cases h
  dsimp only at h
  rcases hft : b.flagAt c with _ | ft <;> rw [hft] at h <;> dsimp only at h
  · cases h
    exact sameOccupancy_refl _
  by_cases hteam : ft = a.team
  · rw [if_pos hteam] at h
    rcases hbc : b.baseCoords ft with _ | bc <;> rw [hbc] at h <;>
      dsimp only at h
    · cases h
    rcases hcap : checkCaptureConditions hfr (b.setFlagCoords ft bc) none with
      _ | ⟨tc, b2⟩ <;> rw [hcap] at h <;> dsimp only at h
    · cases h
    have h1 := sameOccupancy_setFlagCoords b ft bc
    have h2 := checkCaptureConditions_occupancy hfr _ none tc b2 hcap
    rcases hfind2 : b2.findActor aid with _ | ⟨a2, c2⟩ <;> rw [hfind2] at h <;>
      dsimp only at h
    · cases h
    by_cases hflag : a2.flag.isSome
    · rw [if_pos hflag] at h
      cases h
      exact sameOccupancy_trans (sameOccupancy_trans h1 h2)
        (sameOccupancy_setActorFlag b2 aid none)
    · rw [if_neg hflag] at h
      cases h
      exact sameOccupancy_trans h1 h2
  · rw [if_neg hteam] at h
    cases h
    exact sameOccupancy_refl _

theorem coordsOK_of_sameOccupancy {b b' : BoardData} (h : sameOccupancy b b')
    (hOK : b.coordsOK) : b'.coordsOK := by
  obtain ⟨h1, h2, h3⟩ := h
  unfold BoardData.coordsOK at *
  rw [h1, h2, h3]
  exact hOK

theorem actorAt_eq_none_forall (b : BoardData) (c0 : Coordinates)
    (h : b.actorAt c0 = none) : ∀ e ∈ b.actors, e.2 ≠ c0 := by
  unfold BoardData.actorAt at h
  rw [Option.map_eq_none', List.getLast?_eq_none_iff, List.filter_eq_nil_iff]
    at h
  intro e he hc
  exact absurd (by simp [hc]) (h e he)

theorem baseAt_eq_none_forall (b : BoardData) (c0 : Coordinates)
    (h : b.baseAt c0 = none) : ∀ e ∈ b.bases, e.2 ≠ c0 := by
  unfold BoardData.baseAt at h
  rw [Option.map_eq_none', List.getLast?_eq_none_iff, List.filter_eq_nil_iff]
    at h
  intro e he hc
  exact absurd (by simp [hc]) (h e he)

theorem updateFirst_coords_pairwise (aid : ActorId) (newC : Coordinates)
    (l : List (Actor × Coordinates)) (hfresh : ∀ e ∈ l, e.2 ≠ newC)
    (hpw : (l.map (·.2)).Pairwise (· ≠ ·)) :
    ((updateFirst (actorKeyed aid) (fun e => (e.1, newC)) l).map
        (·.2)).Pairwise (· ≠ ·) ∧
      ∀ c ∈ (updateFirst (actorKeyed aid) (fun e => (e.1, newC)) l).map (·.2),
        c = newC ∨ c ∈ l.map (·.2) := by
  induction l with
  | nil => simp [updateFirst]
  | cons x xs ih =>
    rw [List.map_cons, List.pairwise_cons] at hpw
    obtain ⟨hx, hxs⟩ := hpw
    by_cases h : actorKeyed aid x = true
    · simp only [updateFirst, if_pos h, List.map_cons]
      constructor
      · rw [List.pairwise_cons]
        refine ⟨?_, hxs⟩
        intro c hc hcn
        obtain ⟨e, he, rfl⟩ := List.mem_map.mp hc
        exact hfresh e (List.mem_cons_of_mem x he) hcn.symm
      · intro c hc
        rcases List.mem_cons.mp hc with rfl | hc'
        · exact Or.inl rfl
        · exact Or.inr (List.mem_cons_of_mem _ hc')
    · simp only [updateFirst, if_neg h, List.map_cons]
      obtain ⟨ih1, ih2⟩ :=
        ih (fun e he => hfresh e (List.mem_cons_of_mem x he)) hxs
      constructor
      · rw [List.pairwise_cons]
        refine ⟨?_, ih1⟩
        intro c hc
        rcases ih2 c hc with rfl | hc'
        · exact hfresh x (List.mem_cons_self x xs)
        · exact hx c hc'
      · intro c hc
        rcases List.mem_cons.mp hc with rfl | hc'
        · exact Or.inr (List.mem_cons_self _ _)
        · rcases ih2 c hc' with rfl | hc''
          · exact Or.inl rfl
          · exact Or.inr (List.mem_cons_of_mem _ hc'')

theorem coordsOK_setActorCoords (b : BoardData) (aid : ActorId)
    (newC : Coordinates) (hOK : b.coordsOK)
    (hfreshA : ∀ e ∈ b.actors, e.2 ≠ newC)
    (hfreshB : ∀ e ∈ b.bases, e.2 ≠ newC) (hw : newC ∉ b.walls) :
    (b.setActorCoords aid newC).coordsOK := by
  obtain ⟨hpw, hmem⟩ := hOK
  obtain ⟨hpw', hsub⟩ :=
    updateFirst_coords_pairwise aid newC b.actors hfreshA hpw
  refine ⟨hpw', ?_⟩
  intro c hc
  rcases hsub c hc with rfl | hc'
  · exact ⟨hw, fun e he hce => hfreshB e he (by rw [← hce])⟩
  · exact hmem c hc'

theorem choose_eq_some_mem {α : Type} {l : List α} {k : Nat} {x : α}
    (h : choose l k = some x) : x ∈ l := by
  unfold choose at h
  exact List.get?_mem h

theorem coordsOK_tryPutActor (b : BoardData) (aid : ActorId)
    (newC : Coordinates) (r : Bool) (b' : BoardData)
    (h : tryPutActor b aid newC = some (r, b')) (hOK : b.coordsOK) :
    b'.coordsOK := by
  unfold tryPutActor at h
  rcases hfind : b.findActor aid with _ | ⟨a, c⟩ <;> rw [hfind] at h <;>
    dsimp only at h
  · cases h
  split_ifs at h with h1 h2 h3 h4
  · cases h; exact hOK
  · cases h; exact hOK
  · cases h; exact hOK
  · cases h; exact hOK
  · have hOKmid : (b.setActorCoords aid newC).coordsOK :=
      coordsOK_setActorCoords b aid newC hOK
        (actorAt_eq_none_forall b newC (Option.not_isSome_iff_eq_none.mp h2))
        (baseAt_eq_none_forall b newC (Option.not_isSome_iff_eq_none.mp h3)) h4
    rcases haf : a.flag with _ | f <;> rw [haf] at h <;> dsimp only at h <;>
      cases h
    · exact hOKmid
    · exact coordsOK_of_sameOccupancy
        (sameOccupancy_setFlagCoords (b.setActorCoords aid newC) f newC) hOKmid

theorem coordsOK_move (hfr : Bool) (b : BoardData) (aid : ActorId)
    (d : Directions) (r : Bool) (tc : Option Team) (b' : BoardData)
    (h : move hfr b aid d = some (r, tc, b')) (hOK : b.coordsOK) :
    b'.coordsOK := by
  unfold move at h
  rcases hfind : b.findActor aid with _ | ⟨a, c⟩ <;> rw [hfind] at h <;>
    dsimp only at h
  · cases h
  rcases htp : tryPutActor b aid (calcTargetCoordinates c d b.mapSize) with
    _ | ⟨moved, b1⟩ <;> rw [htp] at h
  · dsimp only at h
    cases h
  have hOK1 := coordsOK_tryPutActor _ _ _ _ _ htp hOK
  cases moved
  · dsimp only at h; cases h; exact hOK1
  · dsimp only at h
    rcases hrc : checkFlagReturnConditions hfr b1 aid with _ | ⟨tc2, b2⟩ <;>
      rw [hrc] at h <;> dsimp only [Option.map] at h
    · cases h
    · cases h
      exact coordsOK_of_sameOccupancy
        (checkFlagReturnConditions_occupancy _ _ _ _ _ hrc) hOK1

theorem notMem_forbidden_actors (b : BoardData) (target : Coordinates)
    (h : target ∉ forbiddenPositions b) : ∀ e ∈ b.actors, e.2 ≠ target := by
  intro e he hc
  apply h
  unfold forbiddenPositions
  exact List.mem_append_left _ (List.mem_append_left _
    (List.mem_append_right _ (List.mem_map.mpr ⟨e, he, hc⟩)))

theorem notMem_forbidden_bases (b : BoardData) (target : Coordinates)
    (h : target ∉ forbiddenPositions b) : ∀ e ∈ b.bases, e.2 ≠ target := by
  intro e he hc
  apply h
  unfold forbiddenPositions
  exact List.mem_append_left _
    (List.mem_append_right _ (List.mem_map.mpr ⟨e, he, hc⟩))

theorem notMem_forbidden_walls (b : BoardData) (target : Coordinates)
    (h : target ∉ forbiddenPositions b) : target ∉ b.walls := by
  intro hw
  exact h (List.mem_append_right _ hw)

theorem coordsOK_placeActorInArea (k : Nat) (b : BoardData) (aid : ActorId)
    (possible : List Coordinates) (b' : BoardData)
    (h : placeActorInArea k b aid possible (forbiddenPositions b) = some b')
    (hOK : b.coordsOK) : b'.coordsOK := by
  unfold placeActorInArea at h
  dsimp only at h
  rcases hch : choose (possible.filter
      (fun c => decide (c ∉ forbiddenPositions b))) k with _ | target <;>
    rw [hch] at h <;> dsimp only at h
  · cases h
  rcases hfind : b.findActor aid with _ | ⟨a, c0⟩ <;> rw [hfind] at h <;>
    dsimp only at h
  · cases h
  cases h
  have htm := choose_eq_some_mem hch
  have hforb : target ∉ forbiddenPositions b := by
    have := (List.mem_filter.mp htm).2
    simpa using this
  have hnA := notMem_forbidden_actors b target hforb
  have hnB := notMem_forbidden_bases b target hforb
  have hnW := notMem_forbidden_walls b target hforb
  by_cases hfl : a.flag.isSome
  · rw [if_pos hfl]
    have hso := sameOccupancy_setActorFlag b aid (none : Option Team)
    apply coordsOK_setActorCoords _ aid target
      (coordsOK_of_sameOccupancy hso hOK)
    · intro e he hc
      have hmem : e.2 ∈ coordsList (b.setActorFlag aid none) :=
        List.mem_map_of_mem _ he
      rw [hso.1] at hmem
      obtain ⟨e', he', heq⟩ := List.mem_map.mp hmem
      exact hnA e' he' (heq.trans hc)
    · intro e he hc
      rw [hso.2.2] at he
      exact hnB e he hc
    · rw [hso.2.1]
      exact hnW
  · rw [if_neg hfl]
    exact coordsOK_setActorCoords b aid target hOK hnA hnB hnW

theorem coordsOK_respawn (k : Nat) (b : BoardData) (aid : ActorId)
    (b' : BoardData) (h : respawn k b aid = some b') (hOK : b.coordsOK) :
    b'.coordsOK := by
  unfold respawn at h
  rcases hbc : b.baseCoords aid.2 with _ | bc <;> rw [hbc] at h <;>
    dsimp only at h
  · cases h
  exact coordsOK_placeActorInArea k b aid _ b' h hOK

theorem coordsOK_attack (k : Nat) (success : Bool) (b : BoardData)
    (aid : ActorId) (d : Directions) (r : Bool) (tc : Option Team)
    (b' : BoardData) (h : attack k success b aid d = some (r, tc, b'))
    (hOK : b.coordsOK) : b'.coordsOK := by
  unfold attack at h
  rcases hfind : b.findActor aid with _ | ⟨a, c⟩ <;> rw [hfind] at h <;>
    dsimp only at h
  · cases h
  split_ifs at h with h1 h2
  · cases h; exact hOK
  · rcases ha : b.actorAt (calcTargetCoordinates c d b.mapSize) with _ | ta <;>
      rw [ha] at h <;> dsimp only at h
    · cases h; exact hOK
    rcases hrs : respawn k b (ta.ident, ta.team) with _ | b2 <;>
      rw [hrs] at h <;> dsimp only at h
    · cases h
    · cases h
      exact coordsOK_respawn _ _ _ _ hrs hOK
  · rcases ha : b.actorAt (calcTargetCoordinates c d b.mapSize) with _ | ta <;>
      rw [ha] at h <;> dsimp only at h
    · cases h; exact hOK
    · cases h; exact hOK

theorem grabputFlag_occupancy (success hfr : Bool) (b : BoardData)
    (aid : ActorId) (d : Directions) (r : Bool) (tc : Option Team)
    (b' : BoardData) (h : grabputFlag success hfr b aid d = some (r, tc, b')) :
    sameOccupancy b b' := by
  unfold grabputFlag at h
  rcases hfind : b.findActor aid with _ | ⟨a, c⟩ <;> rw [hfind] at h <;>
    dsimp only at h
  · cases h
  rcases haf : a.flag with _ | f <;> rw [haf] at h <;> dsimp only at h
  · rcases hft : b.flagAt (calcTargetCoordinates c d b.mapSize) with _ | f <;>
      rw [hft] at h <;> dsimp only at h
    · cases h
      exact sameOccupancy_refl _
    split_ifs at h with hs
    · have hso1 := sameOccupancy_setFlagCoords b f c
      have hso2 := sameOccupancy_setActorFlag
        ((b.setFlagCoords f c)) aid (some f)
      have hso12 := sameOccupancy_trans hso1 hso2
      set b2 := (b.setFlagCoords f c).setActorFlag aid (some f) with hb2
      rcases hta : b2.actorAt (calcTargetCoordinates c d b.mapSize) with
        _ | ta <;> rw [hta] at h <;> dsimp only at h
      · rcases hrc : checkFlagReturnConditions hfr b2 aid with _ | ⟨tc2, b4⟩ <;>
          rw [hrc] at h <;> dsimp only at h
        · cases h
        · cases h
          exact sameOccupancy_trans hso12
            (checkFlagReturnConditions_occupancy _ _ _ _ _ hrc)
      · have hso3 := sameOccupancy_setActorFlag b2 (ta.ident, ta.team)
          (none : Option Team)
        rcases hrc : checkFlagReturnConditions hfr
            (b2.setActorFlag (ta.ident, ta.team) none) aid with _ | ⟨tc2, b4⟩ <;>
          rw [hrc] at h <;> dsimp only at h
        · cases h
        · cases h
          exact sameOccupancy_trans (sameOccupancy_trans hso12 hso3)
            (checkFlagReturnConditions_occupancy _ _ _ _ _ hrc)
    · cases h
      exact sameOccupancy_refl _
  · rcases hta : b.actorAt (calcTargetCoordinates c d b.mapSize) with _ | ta <;>
      rw [hta] at h <;> dsimp only at h
    · split_ifs at h with hw
      · cases h
        exact sameOccupancy_refl _
      · have hso1 := sameOccupancy_setFlagCoords b f
          (calcTargetCoordinates c d b.mapSize)
        have hso2 := sameOccupancy_setActorFlag
          (b.setFlagCoords f (calcTargetCoordinates c d b.mapSize)) aid
          (none : Option Team)
        rcases hcap : checkCaptureConditions hfr
            ((b.setFlagCoords f
              (calcTargetCoordinates c d b.mapSize)).setActorFlag aid none)
            (some f) with _ | ⟨tc2, b3⟩ <;> rw [hcap] at h <;> dsimp only at h
        · cases h
        · cases h
          exact sameOccupancy_trans (sameOccupancy_trans hso1 hso2)
            (checkCaptureConditions_occupancy _ _ _ _ _ hcap)
    · split_ifs at h with hg hful
      · cases h
        exact sameOccupancy_refl _
      · cases h
        exact sameOccupancy_refl _
      · have hso1 := sameOccupancy_setFlagCoords b f
          (calcTargetCoordinates c d b.mapSize)
        have hso2 := sameOccupancy_setActorFlag
          (b.setFlagCoords f (calcTargetCoordinates c d b.mapSize)) aid
          (none : Option Team)
        have hso3 := sameOccupancy_setActorFlag
          ((b.setFlagCoords f
            (calcTargetCoordinates c d b.mapSize)).setActorFlag aid none)
          (ta.ident, ta.team) (some f)
        rcases hrc : checkFlagReturnConditions hfr
            (((b.setFlagCoords f
              (calcTargetCoordinates c d b.mapSize)).setActorFlag aid
                none).setActorFlag (ta.ident, ta.team) (some f))
            (ta.ident, ta.team) with _ | ⟨tc2, b4⟩ <;> rw [hrc] at h <;>
          dsimp only at h
        · cases h
        · cases h
          exact sameOccupancy_trans
            (sameOccupancy_trans (sameOccupancy_trans hso1 hso2) hso3)
            (checkFlagReturnConditions_occupancy _ _ _ _ _ hrc)

theorem coordsOK_build (success : Bool) (b : BoardData) (aid : ActorId)
    (d : Directions) (r : Bool) (b' : BoardData)
    (h : build success b aid d = some (r, b')) (hOK : b.coordsOK) :
    b'.coordsOK := by
  unfold build at h
  rcases hfind : b.findActor aid with _ | ⟨a, c⟩ <;> rw [hfind] at h <;>
    dsimp only at h
  · cases h
  split_ifs at h with h1 h2 h3
  · cases h; exact hOK
  · cases h; exact hOK
  · cases h
    push_neg at h2
    obtain ⟨hA, _, _, hw⟩ := h2
    have hA' : b.actorAt (calcTargetCoordinates c d b.mapSize) = none :=
      Option.not_isSome_iff_eq_none.mp hA
    obtain ⟨hpw, hmem⟩ := hOK
    refine ⟨hpw, ?_⟩
    intro c0 hc0
    obtain ⟨hcw, hcb⟩ := hmem c0 hc0
    refine ⟨?_, hcb⟩
    unfold insertWall
    rw [if_neg hw]
    intro hmem'
    rcases List.mem_append.mp hmem' with hc | hc
    · exact hcw hc
    · rw [List.mem_singleton] at hc
      obtain ⟨e, he, heq⟩ := List.mem_map.mp hc0
      exact actorAt_eq_none_forall b _ hA' e he (heq.trans hc)
  · cases h; exact hOK

theorem coordsOK_destroy (success : Bool) (b : BoardData) (aid : ActorId)
    (d : Directions) (r : Bool) (b' : BoardData)
    (h : destroy success b aid d = some (r, b')) (hOK : b.coordsOK) :
    b'.coordsOK := by
  unfold destroy at h
  rcases hfind : b.findActor aid with _ | ⟨a, c⟩ <;> rw [hfind] at h <;>
    dsimp only at h
  · cases h
  split_ifs at h with h1 h2 h3
  · cases h; exact hOK
  · cases h
    have hins : insertWall (calcTargetCoordinates c d b.mapSize) b.walls =
        b.walls := by
      unfold insertWall
      rw [if_pos h2]
    rw [hins]
    exact hOK
  · cases h; exact hOK
  · cases h; exact hOK

/-- C8: for every board satisfying the occupancy invariant (no two actors on
one coordinate, no actor on a wall or base coordinate), every resolution
operation — move, attack with its respawn, grab/put, build, destroy, and the
respawn placement itself — preserves the invariant. -/
theorem resolutions_preserve_invariant (hfr : Bool) (b : BoardData)
    (hOK : b.coordsOK) :
    (∀ aid d r tc b', move hfr b aid d = some (r, tc, b') → b'.coordsOK) ∧
    (∀ k success aid d r tc b',
      attack k success b aid d = some (r, tc, b') → b'.coordsOK) ∧
    (∀ success aid d r tc b',
      grabputFlag success hfr b aid d = some (r, tc, b') → b'.coordsOK) ∧
    (∀ success aid d r b',
      build success b aid d = some (r, b') → b'.coordsOK) ∧
    (∀ success aid d r b',
      destroy success b aid d = some (r, b') → b'.coordsOK) ∧
    (∀ k aid b', respawn k b aid = some b' → b'.coordsOK) :=
  ⟨fun aid d r tc b' h => coordsOK_move hfr b aid d r tc b' h hOK,
    fun k s aid d r tc b' h => coordsOK_attack k s b aid d r tc b' h hOK,
    fun s aid d r tc b' h =>
      coordsOK_of_sameOccupancy (grabputFlag_occupancy s hfr b aid d r tc b' h)
        hOK,
    fun s aid d r b' h => coordsOK_build s b aid d r b' h hOK,
    fun s aid d r b' h => coordsOK_destroy s b aid d r b' h hOK,
    fun k aid b' h => coordsOK_respawn k b aid b' h hOK⟩

/-- Witness for C8: a concrete valid board; a successful move of the single
actor keeps the invariant. -/
theorem resolutions_preserve_invariant_witness :
    BoardData.coordsOK
      ⟨10, [(⟨0, ⟨"A"⟩, 1, 1, 0, 0, none⟩, ⟨0, 0⟩)], [(⟨"A"⟩, ⟨9, 9⟩)],
        [(⟨"A"⟩, ⟨5, 5⟩)], []⟩ ∧
    BoardData.coordsOK
      ⟨10, [(⟨0, ⟨"A"⟩, 1, 1, 0, 0, none⟩, ⟨1, 0⟩)], [(⟨"A"⟩, ⟨9, 9⟩)],
        [(⟨"A"⟩, ⟨5, 5⟩)], []⟩ :=
  ⟨by decide,
    (resolutions_preserve_invariant false
        ⟨10, [(⟨0, ⟨"A"⟩, 1, 1, 0, 0, none⟩, ⟨0, 0⟩)], [(⟨"A"⟩, ⟨9, 9⟩)],
          [(⟨"A"⟩, ⟨5, 5⟩)], []⟩ (by decide)).1
      (0, ⟨"A"⟩) .right true none
      ⟨10, [(⟨0, ⟨"A"⟩, 1, 1, 0, 0, none⟩, ⟨1, 0⟩)], [(⟨"A"⟩, ⟨9, 9⟩)],
        [(⟨"A"⟩, ⟨5, 5⟩)], []⟩ (by decide)⟩

/-! ## C7: duplicate Move orders in one tick, from `game.py` -/

/-- A `MoveOrder` of `game.py`: team, per-team actor id, direction (the
password is checked by `_validate_order` before partitioning and carries no
further information here). -/
structure MoveOrder where
  team : Team
  actor : Nat
  direction : Directions
deriving DecidableEq, Repr

/-- The per-team score dictionary `Game.scores`. -/
abbrev Scores := List (Team × Int)

/-- `self.scores[scoring_team] += 1`. -/
def bumpScore (s : Scores) (t : Team) : Scores :=
  updateFirst (fun e => decide (e.1 = t)) (fun e => (e.1, e.2 + 1)) s

/-- The loop body of `Game._check_score_conditions` (game.py lines 723-754)
for one flag: like the capture check, but it credits the score and does not
move the flag. -/
def scoreStep (hfr : Bool) (b : BoardData) (s : Scores) (t : Team) :
    Option Scores :=
  match b.flagCoords t with
  | none => none
  | some cf =>
    match b.baseAt cf with
    | none => some s
    | some u =>
      if t = u then some s
      else
        match b.flagCoords u, b.baseCoords u with
        | some ownFlag, some ownBase =>
          if ownFlag = ownBase ∨ hfr = false then some (bumpScore s u)
          else some s
        | _, _ => none

/-- The flag loop of `Game._check_score_conditions`. -/
def scoreLoop (hfr : Bool) (b : BoardData) :
    List Team → Scores → Option Scores
  | [], s => some s
  | t :: ts, s =>
    match scoreStep hfr b s t with
    | none => none
    | some s' => scoreLoop hfr b ts s'

/-- `Game._check_score_conditions` (game.py lines 723-754). -/
def checkScoreConditions (hfr : Bool) (b : BoardData) (s : Scores)
    (flagToScore : Option Team) : Option Scores :=
  scoreLoop hfr b
    (match flagToScore with
      | some t => [t]
      | none => b.flags.map (·.1))
    s

/-- `Game._check_flag_return_conditions` (game.py lines 756-766): return an
own flag found at the actor's coordinates to its base, rerun the score
check for all flags, and clear the actor's carried-flag link. -/
def gameCheckFlagReturn (hfr : Bool) (b : BoardData) (s : Scores)
    (aid : ActorId) : Option (BoardData × Scores) :=
  match b.findActor aid with
  | none => none
  | some (a, c) =>
    match b.flagAt c with
    | none => some (b, s)
    | some ft =>
      if ft = a.team then
        match b.baseCoords ft with
        | none => none
        | some bc =>
          let b1 := b.setFlagCoords ft bc
          match checkScoreConditions hfr b1 s none with
          | none => none
          | some s' =>
            match b1.findActor aid with
            | none => none
            | some (a2, _) =>
              if a2.flag.isSome then some (b1.setActorFlag aid none, s')
              else some (b1, s')
      else some (b, s)

/-- The per-order outcome of `_execute_move_orders`: `dropped` when the actor
already moved this tick (warning only), `applied` when `Board.move`
succeeded, `failed` when it was rejected. -/
inductive MoveOutcome where
  | dropped
  | applied
  | failed
deriving DecidableEq, Repr

/-- `Game._execute_move_orders` (game.py lines 582-597): process move orders
in arrival order, dropping an order with a warning when
`already_moved[actor]` is set; `already_moved[actor]` records the RESULT of
`Board.move`, and the flag-return check runs after a successful move.
`Board.move` (game.py lines 342-344, 400-422) is the clamp-then-try-put step
embedded by `calcTargetCoordinates`/`tryPutActor`. -/
def executeMoveOrders (hfr : Bool) :
    List MoveOrder → BoardData → Scores → List ActorId →
    Option (List MoveOutcome × BoardData × Scores)
  | [], b, s, _ => some ([], b, s)
  | o :: os, b, s, movedSet =>
    if (o.actor, o.team) ∈ movedSet then
      match executeMoveOrders hfr os b s movedSet with
      | none => none
      | some (outs, b', s') => some (.dropped :: outs, b', s')
    else
      match b.findActor (o.actor, o.team) with
      | none => none
      | some (_, c) =>
        match tryPutActor b (o.actor, o.team)
            (calcTargetCoordinates c o.direction b.mapSize) with
        | none => none
        | some (false, b1) =>
          match executeMoveOrders hfr os b1 s movedSet with
          | none => none
          | some (outs, b', s') => some (.failed :: outs, b', s')
        | some (true, b1) =>
          match gameCheckFlagReturn hfr b1 s (o.actor, o.team) with
          | none => none
          | some (b2, s2) =>
            match executeMoveOrders hfr os b2 s2
                ((o.actor, o.team) :: movedSet) with
            | none => none
            | some (outs, b', s') => some (.applied :: outs, b', s')

/-- Counterexample to C7 as stated: actor `A-0` at `(0, 0)` with a wall at
`(0, 1)`; two Move orders for the same actor in one tick, `up` then `right`.
The first move fails against the wall, so `already_moved` stays unset and the
second order is NOT dropped: it is applied, moving the actor to `(1, 0)`. -/
theorem dup_move_second_applied :
    (executeMoveOrders false
        [⟨⟨"A"⟩, 0, .up⟩, ⟨⟨"A"⟩, 0, .right⟩]
        ⟨10, [(⟨0, ⟨"A"⟩, 1, 1, 0, 0, none⟩, ⟨0, 0⟩)], [(⟨"A"⟩, ⟨9, 9⟩)],
          [(⟨"A"⟩, ⟨5, 5⟩)], [⟨0, 1⟩]⟩ [(⟨"A"⟩, 0)] []).map (fun r => r.1) =
      some [MoveOutcome.failed, MoveOutcome.applied] ∧
    (executeMoveOrders false
        [⟨⟨"A"⟩, 0, .up⟩, ⟨⟨"A"⟩, 0, .right⟩]
        ⟨10, [(⟨0, ⟨"A"⟩, 1, 1, 0, 0, none⟩, ⟨0, 0⟩)], [(⟨"A"⟩, ⟨9, 9⟩)],
          [(⟨"A"⟩, ⟨5, 5⟩)], [⟨0, 1⟩]⟩ [(⟨"A"⟩, 0)] []).bind
        (fun r => r.2.1.findActor (0, ⟨"A"⟩)) =
      some (⟨0, ⟨"A"⟩, 1, 1, 0, 0, none⟩, ⟨1, 0⟩) := by
  constructor
  · rfl
  · rfl

/-- C7 amended: for two Move orders for the same actor in one tick, the
second is dropped (with a warning) precisely when the first was successfully
applied — a failed first move leaves the actor eligible and the second order
is attempted — and at most one of the two orders is applied. -/
theorem dup_move_amended (hfr : Bool) (o1 o2 : MoveOrder) (b : BoardData)
    (s : Scores) (r1 r2 : MoveOutcome) (b' : BoardData) (s' : Scores)
    (hsame : o1.actor = o2.actor ∧ o1.team = o2.team)
    (h : executeMoveOrders hfr [o1, o2] b s [] = some ([r1, r2], b', s')) :
    (r2 = MoveOutcome.dropped ↔ r1 = MoveOutcome.applied) ∧
      ¬(r1 = MoveOutcome.applied ∧ r2 = MoveOutcome.applied) := by
  rw [executeMoveOrders, if_neg (List.not_mem_nil _)] at h
  rcases hf1 : b.findActor (o1.actor, o1.team) with _ | ⟨a1, c1⟩ <;>
    rw [hf1] at h <;> dsimp only at h
  · cases h
  rcases ht1 : tryPutActor b (o1.actor, o1.team)
      (calcTargetCoordinates c1 o1.direction b.mapSize) with _ | ⟨m1, b1⟩ <;>
    rw [ht1] at h
  · dsimp only at h
    cases h
  cases m1
  · dsimp only at h
    rw [executeMoveOrders, if_neg (List.not_mem_nil _)] at h
    rcases hf2 : b1.findActor (o2.actor, o2.team) with _ | ⟨a2, c2⟩ <;>
      rw [hf2] at h <;> dsimp only at h
    · cases h
    rcases ht2 : tryPutActor b1 (o2.actor, o2.team)
        (calcTargetCoordinates c2 o2.direction b1.mapSize) with
      _ | ⟨m2, b2⟩ <;> rw [ht2] at h
    · dsimp only at h
      cases h
    cases m2
    · dsimp only at h
      rw [executeMoveOrders] at h
      dsimp only at h
      cases h
      exact ⟨by simp, by simp⟩
    · dsimp only at h
      rcases hg2 : gameCheckFlagReturn hfr b2 s (o2.actor, o2.team) with
        _ | ⟨b3, s3⟩ <;> rw [hg2] at h <;> dsimp only at h
      · cases h
      rw [executeMoveOrders] at h
      dsimp only at h
      cases h
      exact ⟨by simp, by simp⟩
  · dsimp only at h
    rcases hg1 : gameCheckFlagReturn hfr b1 s (o1.actor, o1.team) with
      _ | ⟨b2, s2⟩ <;> rw [hg1] at h <;> dsimp only at h
    · cases h
    rw [executeMoveOrders] at h
    have hmem : (o2.actor, o2.team) ∈ [((o1.actor, o1.team) : ActorId)] := by
      rw [List.mem_singleton, hsame.1, hsame.2]
    rw [if_pos hmem] at h
    rw [executeMoveOrders] at h
    dsimp only at h
    cases h
    exact ⟨by simp, by simp⟩

/-- Witness for the amended C7 at the counterexample input. -/
theorem dup_move_amended_witness :
    ((MoveOutcome.applied = MoveOutcome.dropped ↔
        MoveOutcome.failed = MoveOutcome.applied) ∧
      ¬(MoveOutcome.failed = MoveOutcome.applied ∧
        MoveOutcome.applied = MoveOutcome.applied)) :=
  dup_move_amended false ⟨⟨"A"⟩, 0, .up⟩ ⟨⟨"A"⟩, 0, .right⟩
    ⟨10, [(⟨0, ⟨"A"⟩, 1, 1, 0, 0, none⟩, ⟨0, 0⟩)], [(⟨"A"⟩, ⟨9, 9⟩)],
      [(⟨"A"⟩, ⟨5, 5⟩)], [⟨0, 1⟩]⟩ [(⟨"A"⟩, 0)] MoveOutcome.failed
    MoveOutcome.applied
    ⟨10, [(⟨0, ⟨"A"⟩, 1, 1, 0, 0, none⟩, ⟨1, 0⟩)], [(⟨"A"⟩, ⟨9, 9⟩)],
      [(⟨"A"⟩, ⟨5, 5⟩)], [⟨0, 1⟩]⟩ [(⟨"A"⟩, 0)] ⟨rfl, rfl⟩ (by rfl)

/-! ## C5: loading the persisted score log, from `game.py` -/

/-- `line.split(":")` over the characters of a line. -/
def splitColon : List Char → List (List Char)
  | [] => [[]]
  | c :: cs =>
    if c = ':' then [] :: splitColon cs
    else
      match splitColon cs with
      | [] => [[c]]
      | p :: ps => (c :: p) :: ps

/-- Python `str.strip()` whitespace. -/
def isSpaceChar (c : Char) : Bool :=
  decide (c = ' ' ∨ c = '\n' ∨ c = '\t' ∨ c = '\r')

/-- Python `str.strip()` over the characters of a string. -/
def stripChars (l : List Char) : List Char :=
  ((l.dropWhile isSpaceChar).reverse.dropWhile isSpaceChar).reverse

/-- The digits of a decimal number, most significant first. -/
def parseNatChars : List Char → Option Nat
  | [] => none
  | l =>
    l.foldl
      (fun acc c =>
        match acc with
        | none => none
        | some n =>
          if '0' ≤ c ∧ c ≤ '9' then some (n * 10 + (c.toNat - '0'.toNat))
          else none)
      (some 0)

/-- Python `int(s)`: strip whitespace, optional sign, decimal digits;
`none` is the `ValueError`. -/
def parseIntChars (l : List Char) : Option Int :=
  match stripChars l with
  | '-' :: ds => (parseNatChars ds).map (fun n => -(n : Int))
  | '+' :: ds => (parseNatChars ds).map (fun n => (n : Int))
  | ds => (parseNatChars ds).map (fun n => (n : Int))

/-- `Game._read_scores` (game.py lines 537-551), over the lines of the score
file: split the line on `":"`, parse the integer, strip the team name, then
run `self.overall_score[self.names_teams[team]] += score` inside a
`try ... except ValueError: pass` block.  An uncaught Python exception is an
`Except.error` naming its kind: a malformed line raises `ValueError` outside
any handler, and an unknown team name raises `KeyError` from
`names_teams[team]`, which the `except ValueError` clause (whose comment says
"ignore score if team is not in current teams") cannot catch. -/
def readScoresLines (roster : List (List Char)) :
    List (List Char) → List (List Char × Int) →
    Except String (List (List Char × Int))
  | [], overall => .ok overall
  | line :: rest, overall =>
    match splitColon line with
    | [teamPart, scorePart] =>
      match parseIntChars scorePart with
      | none => .error "ValueError"
      | some score =>
        let team := stripChars teamPart
        if team ∈ roster then
          readScoresLines roster rest
            (updateFirst (fun e => decide (e.1 = team))
              (fun e => (e.1, e.2 + score)) overall)
        else .error "KeyError"
    | _ => .error "ValueError"

/-- C5 evaluated: a line for the known team `TeamA` is added to its overall
score, but a line for the unknown team `TeamB` makes loading fail with an
uncaught `KeyError` instead of being ignored. -/
theorem readScores_unknown_team_raises :
    readScoresLines ["TeamA".toList] ["TeamA: 3\n".toList]
        [("TeamA".toList, 0)] =
      Except.ok [("TeamA".toList, 3)] ∧
    readScoresLines ["TeamA".toList] ["TeamB: 5\n".toList, "TeamA: 3\n".toList]
        [("TeamA".toList, 0)] =
      Except.error "KeyError" := by
  constructor
  · rfl
  · rfl

/-! ## C3: the fixed resolution sequence of one tick -/

/-- The five order kinds accepted by the order endpoints
(routers/orders.py). -/
inductive OrderKind where
  | move
  | grabput
  | attack
  | destroy
  | build
deriving DecidableEq, Repr

/-- An order as seen by the tick orchestrator: issuing team, per-team actor
id, and kind (the direction plays no role in the resolution sequence). -/
structure TickOrder where
  team : Team
  actor : Nat
  kind : OrderKind
deriving DecidableEq, Repr

/-- The position of a kind in the fixed resolution sequence
Move → GrabPut → Attack → Destroy → Build. -/
def kindRank : OrderKind → Nat
  | .move => 0
  | .grabput => 1
  | .attack => 2
  | .destroy => 3
  | .build => 4

/-- Modelled from the spec: the partition-and-sequence skeleton of
`Game.execute_game_step` of the current game module, which is absent from
src — the game.py in src is an older revision resolving only Move, GrabPut
and Attack, while its callers (game_loop.py and the five order endpoints of
routers/orders.py, which construct `game.DestroyOrder` and `game.BuildOrder`)
are present.  Per the spec: partition the batch by kind, preserving arrival
order within each kind, and resolve the kinds in the fixed sequence Move,
GrabPut, Attack, Destroy, Build.  The returned list is the tick's resolution
sequence. -/
def executeGameStepSequence (orders : List TickOrder) : List TickOrder :=
  orders.filter (fun o => decide (o.kind = .move)) ++
    orders.filter (fun o => decide (o.kind = .grabput)) ++
    orders.filter (fun o => decide (o.kind = .attack)) ++
    orders.filter (fun o => decide (o.kind = .destroy)) ++
    orders.filter (fun o => decide (o.kind = .build))

theorem mem_filter_kind {orders : List TickOrder} {k : OrderKind}
    {o : TickOrder} (h : o ∈ orders.filter (fun o => decide (o.kind = k))) :
    o.kind = k := by
  have := (List.mem_filter.mp h).2
  simpa using this

theorem filter_kind_filter_kind (orders : List TickOrder) (k k' : OrderKind) :
    (orders.filter (fun o => decide (o.kind = k'))).filter
        (fun o => decide (o.kind = k)) =
      if k = k' then orders.filter (fun o => decide (o.kind = k)) else [] := by
  split
  · next heq =>
    subst heq
    rw [List.filter_filter]
    apply List.filter_congr
    intro a _
    simp
  · next hne =>
    rw [List.filter_filter, List.filter_eq_nil_iff]
    intro a _
    simp only [Bool.and_eq_true, decide_eq_true_eq, not_and]
    intro h1 h2
    exact hne (h1 ▸ h2 ▸ rfl)

theorem pairwise_rank_filter (orders : List TickOrder) (k : OrderKind) :
    (orders.filter (fun o => decide (o.kind = k))).Pairwise
      (fun o1 o2 => kindRank o1.kind ≤ kindRank o2.kind) := by
  apply List.pairwise_of_forall_mem_list
  intro a ha b hb
  rw [mem_filter_kind ha, mem_filter_kind hb]

/-- C3: in every tick, the resolution sequence produced by the order step is
exactly the submitted orders of each kind in arrival order, and it is sorted
by the fixed kind sequence: every Move resolution comes before every GrabPut
resolution, which comes before every Attack resolution, then every Destroy
resolution, then every Build resolution. -/
theorem execute_game_step_fixed_sequence (orders : List TickOrder) :
    (∀ k, (executeGameStepSequence orders).filter
        (fun o => decide (o.kind = k)) =
      orders.filter (fun o => decide (o.kind = k))) ∧
    (executeGameStepSequence orders).Pairwise
      (fun o1 o2 => kindRank o1.kind ≤ kindRank o2.kind) := by
  constructor
  · intro k
    unfold executeGameStepSequence
    simp only [List.filter_append, filter_kind_filter_kind]
    cases k <;> simp
  · unfold executeGameStepSequence
    simp only [List.pairwise_append]
    refine ⟨⟨⟨⟨pairwise_rank_filter orders _, pairwise_rank_filter orders _,
      ?_⟩, pairwise_rank_filter orders _, ?_⟩,
      pairwise_rank_filter orders _, ?_⟩, pairwise_rank_filter orders _, ?_⟩
    · intro a ha b hb
      rw [mem_filter_kind ha, mem_filter_kind hb]
      decide
    · intro a ha b hb
      rcases List.mem_append.mp ha with h | h <;>
        rw [mem_filter_kind h, mem_filter_kind hb] <;> decide
    · intro a ha b hb
      rcases List.mem_append.mp ha with h | h
      · rcases List.mem_append.mp h with h' | h' <;>
          rw [mem_filter_kind h', mem_filter_kind hb] <;> decide
      · rw [mem_filter_kind h, mem_filter_kind hb]
        decide
    · intro a ha b hb
      rcases List.mem_append.mp ha with h | h
      · rcases List.mem_append.mp h with h' | h'
        · rcases List.mem_append.mp h' with h'' | h'' <;>
            rw [mem_filter_kind h'', mem_filter_kind hb] <;> decide
        · rw [mem_filter_kind h', mem_filter_kind hb]
          decide
      · rw [mem_filter_kind h, mem_filter_kind hb]
        decide

/-! ## C4: writing the final scores -/

/-- Modelled from the spec: `Game._write_scores` / `end_game()` of the
current game module, which is absent from src — only its callers
(game_loop.py) and the `winning_bonus` ruleset field it reads
(routers/states.py lines 168 and 242) are present, while the game.py in src
is an older revision writing 1x/3x `score_multiplier` lines for the winners
only.  Per the spec: one score line per team; the strictly-highest-scoring
team receives score + winning_bonus; if the top score is tied between two or
more teams, no bonus is applied and each team's raw score is written
as-is. -/
def writeScores (winningBonus : Int) (scores : List (String × Int)) :
    List (String × Int) :=
  match scores with
  | [] => []
  | e :: rest =>
    let top := (rest.map (·.2)).foldl max e.2
    if ((e :: rest).filter (fun x => decide (x.2 = top))).length = 1 then
      (e :: rest).map
        (fun x => if x.2 = top then (x.1, x.2 + winningBonus) else x)
    else e :: rest

theorem foldl_max_le (l : List Int) (a : Int) :
    a ≤ l.foldl max a ∧ ∀ x ∈ l, x ≤ l.foldl max a := by
  induction l generalizing a with
  | nil => simp
  | cons y ys ih =>
    simp only [List.foldl_cons]
    obtain ⟨h1, h2⟩ := ih (max a y)
    refine ⟨le_trans (le_max_left a y) h1, ?_⟩
    intro x hx
    rcases List.mem_cons.mp hx with rfl | hx'
    · exact le_trans (le_max_right a x) h1
    · exact h2 x hx'

theorem foldl_max_mem (l : List Int) (a : Int) :
    l.foldl max a = a ∨ l.foldl max a ∈ l := by
  induction l generalizing a with
  | nil => exact Or.inl rfl
  | cons y ys ih =>
    simp only [List.foldl_cons]
    rcases ih (max a y) with h | h
    · rcases max_choice a y with hm | hm
      · exact Or.inl (h.trans hm)
      · refine Or.inr ?_
        rw [h, hm]
        exact List.mem_cons_self y ys
    · exact Or.inr (List.mem_cons_of_mem y h)

theorem nodup_all_eq_singleton {α : Type} (l : List α) (e : α)
    (hnd : l.Nodup) (hall : ∀ x ∈ l, x = e) (hmem : e ∈ l) : l = [e] := by
  cases l with
  | nil => cases hmem
  | cons a t =>
    have ha : a = e := hall a (List.mem_cons_self a t)
    subst ha
    cases t with
    | nil => rfl
    | cons b t' =>
      have hb : b = a := hall b (by simp)
      rw [List.nodup_cons] at hnd
      have hmem' : a ∈ b :: t' := by
        rw [hb]
        exact List.mem_cons_self a t'
      exact absurd hmem' hnd.1

theorem two_mem_le_length {α : Type} {l : List α} {x y : α} (hx : x ∈ l)
    (hy : y ∈ l) (hne : x ≠ y) : 2 ≤ l.length := by
  cases l with
  | nil => cases hx
  | cons a t =>
    cases t with
    | nil =>
      rw [List.mem_singleton] at hx hy
      exact absurd (hx.trans hy.symm) hne
    | cons b t' =>
      simp only [List.length_cons]
      omega

/-- C4: over nonempty scores with distinct team names, the score writing
emits exactly one line per team (names preserved in order); when one team's
score is strictly highest its line carries score + winning_bonus and the
other teams carry their raw scores; when the top score is tied between two
or more teams every team's raw score is written as-is. -/
theorem writeScores_spec (bonus : Int) (scores : List (String × Int))
    (hne : scores ≠ []) (hnd : (scores.map Prod.fst).Nodup) :
    ((writeScores bonus scores).map Prod.fst = scores.map Prod.fst) ∧
    (∀ e ∈ scores, (∀ e' ∈ scores, e'.1 ≠ e.1 → e'.2 < e.2) →
      (e.1, e.2 + bonus) ∈ writeScores bonus scores ∧
        ∀ e' ∈ scores, e'.1 ≠ e.1 → e' ∈ writeScores bonus scores) ∧
    ((∃ e ∈ scores, ∃ e' ∈ scores, e.1 ≠ e'.1 ∧ e.2 = e'.2 ∧
        ∀ x ∈ scores, x.2 ≤ e.2) →
      writeScores bonus scores = scores) := by
  obtain ⟨hd, rest, rfl⟩ : ∃ hd rest, scores = hd :: rest := by
    cases scores with
    | nil => exact absurd rfl hne
    | cons hd rest => exact ⟨hd, rest, rfl⟩
  have hsnodup : (hd :: rest).Nodup := List.Nodup.of_map _ hnd
  have hinj := List.inj_on_of_nodup_map hnd
  have hws : writeScores bonus (hd :: rest) =
      if ((hd :: rest).filter
          (fun x => decide (x.2 = (rest.map (fun x => x.2)).foldl max
            hd.2))).length = 1 then
        (hd :: rest).map
          (fun x => if x.2 = (rest.map (fun x => x.2)).foldl max hd.2 then
            (x.1, x.2 + bonus) else x)
      else hd :: rest := rfl
  set top := (rest.map (fun x => x.2)).foldl max hd.2 with htopdef
  have htople : ∀ x ∈ hd :: rest, x.2 ≤ top := by
    intro x hx
    rcases List.mem_cons.mp hx with rfl | hx'
    · exact (foldl_max_le _ _).1
    · exact (foldl_max_le _ _).2 x.2 (List.mem_map_of_mem _ hx')
  have htopmem : ∃ y ∈ hd :: rest, y.2 = top := by
    rcases foldl_max_mem (rest.map (fun x => x.2)) hd.2 with h | h
    · exact ⟨hd, List.mem_cons_self hd rest, h.symm⟩
    · obtain ⟨y, hy, hy2⟩ := List.mem_map.mp h
      exact ⟨y, List.mem_cons_of_mem hd hy, hy2⟩
  refine ⟨?_, ?_, ?_⟩
  · rw [hws]
    split
    · rw [List.map_map]
      apply List.map_congr_left
      intro a _
      by_cases hx : a.2 = top
      · simp [hx]
      · simp [hx]
    · rfl
  · intro e hee hstrict
    have hetop : e.2 = top := by
      obtain ⟨y, hy, hy2⟩ := htopmem
      by_cases hname : y.1 = e.1
      · have heq : y = e := hinj hy hee hname
        rw [← heq, hy2]
      · have h1 := hstrict y hy hname
        have h2 := htople e hee
        omega
    have hfiltereq : ((hd :: rest).filter (fun x => decide (x.2 = top))) =
        [e] := by
      apply nodup_all_eq_singleton _ _ (hsnodup.filter _)
      · intro x hxf
        obtain ⟨hxl, hxtop⟩ := List.mem_filter.mp hxf
        have hxtop' : x.2 = top := by simpa using hxtop
        by_cases hname : x.1 = e.1
        · exact hinj hxl hee hname
        · have := hstrict x hxl hname
          omega
      · exact List.mem_filter.mpr ⟨hee, by simp [hetop]⟩
    have hcond : ((hd :: rest).filter
        (fun x => decide (x.2 = top))).length = 1 := by
      rw [hfiltereq]
      rfl
    constructor
    · rw [hws, if_pos hcond]
      have heq : (e.1, e.2 + bonus) =
          (fun x => if x.2 = top then (x.1, x.2 + bonus) else x) e := by
        simp [hetop]
      rw [heq]
      exact List.mem_map_of_mem _ hee
    · intro e' he' hname
      rw [hws, if_pos hcond]
      have he'top : ¬(e'.2 = top) := by
        have := hstrict e' he' hname
        omega
      have heq : e' = (fun x => if x.2 = top then (x.1, x.2 + bonus) else x)
          e' := by simp [he'top]
      rw [heq]
      exact List.mem_map_of_mem _ he'
  · rintro ⟨e, hee, e', hee', hname, hsame, hmax⟩
    have hetop : e.2 = top := by
      obtain ⟨y, hy, hy2⟩ := htopmem
      have h1 := hmax y hy
      have h2 := htople e hee
      omega
    have hcond : ¬((hd :: rest).filter
        (fun x => decide (x.2 = top))).length = 1 := by
      have hef : e ∈ (hd :: rest).filter (fun x => decide (x.2 = top)) :=
        List.mem_filter.mpr ⟨hee, by simp [hetop]⟩
      have hef' : e' ∈ (hd :: rest).filter (fun x => decide (x.2 = top)) :=
        List.mem_filter.mpr ⟨hee', by simp [← hsame, hetop]⟩
      have hneq : e ≠ e' := fun h => hname (by rw [h])
      have := two_mem_le_length hef hef' hneq
      omega
    rw [hws, if_neg hcond]

/-- Witness for C4: three teams with scores 3, 5, 2 and bonus 10; the names
are preserved, the strict winner gets the bonus, the others stay raw. -/
theorem writeScores_spec_witness :
    ((writeScores 10 [("A", 3), ("B", 5), ("C", 2)]).map Prod.fst =
      [("A", 3), ("B", 5), ("C", 2)].map Prod.fst) ∧
    (∀ e ∈ [("A", 3), ("B", 5), ("C", 2)],
      (∀ e' ∈ [("A", 3), ("B", 5), ("C", 2)], e'.1 ≠ e.1 → e'.2 < e.2) →
      (e.1, e.2 + 10) ∈ writeScores 10 [("A", 3), ("B", 5), ("C", 2)] ∧
        ∀ e' ∈ [("A", 3), ("B", 5), ("C", 2)], e'.1 ≠ e.1 →
          e' ∈ writeScores 10 [("A", 3), ("B", 5), ("C", 2)]) ∧
    ((∃ e ∈ ([("A", 3), ("B", 5), ("C", 2)] : List (String × Int)),
        ∃ e' ∈ ([("A", 3), ("B", 5), ("C", 2)] : List (String × Int)),
        e.1 ≠ e'.1 ∧ e.2 = e'.2 ∧
        ∀ x ∈ ([("A", 3), ("B", 5), ("C", 2)] : List (String × Int)),
          x.2 ≤ e.2) →
      writeScores 10 [("A", 3), ("B", 5), ("C", 2)] =
        [("A", 3), ("B", 5), ("C", 2)]) :=
  writeScores_spec 10 [("A", 3), ("B", 5), ("C", 2)] (by decide) (by decide)

end Ascifight
